import Mathlib

/-!
Shallow embedding of the core of the resty-stress-tester repository
(result aggregation, percentile computation, outcome classification,
worker parameter-row selection, configuration validation, engine stop),
with theorems checking the natural-language specification against it.

Modelling conventions:
* Go `time.Duration` (an `int64` of nanoseconds) is modelled as `Int`.
* Go `float64` percentile arithmetic is modelled exactly over `ℚ`; the
  final `time.Duration(...)` conversion (truncation toward zero) is
  `ratTrunc`.
* Go maps used as frequency tables (`map[int]int64`, `map[string]int64`)
  are modelled as total count functions defaulting to zero, which matches
  Go map semantics for increment and lookup of missing keys.
* Go strings holding error text are modelled as `List Char`; byte-level
  slicing in the source coincides with character slicing on ASCII text.
* Concurrency: `AddResult` mutations of the buffer and tables happen
  under locks in the source, so a run is modelled as a linearized list of
  recorded outcomes folded through `AddResult`.
-/

namespace StressTester

/-- Go `time.Hour` in nanoseconds, the sentinel initial value of
`MinResponseTime` in `NewStressResult` (result.go line 65). -/
def timeHour : Int := 3600 * 1000000000

/-- Truncation toward zero of a rational, the semantics of Go conversion
from `float64` to the integer type `time.Duration`. -/
def ratTrunc (q : ℚ) : Int := if 0 ≤ q then ⌊q⌋ else ⌈q⌉

/-- One request outcome (types.RequestResult, result.go lines 11-19).
The timestamp and CSV row attachment play no role in the claims and are
omitted; `error` is the error text as characters. -/
structure RequestResult where
  duration : Int
  statusCode : Int
  success : Bool
  error : List Char
  responseSize : Nat
  deriving DecidableEq, Repr

/-- Aggregate statistics store (types.StressResult, result.go lines
28-57). Lock fields are dropped; the two frequency tables are count
functions; `DetailedResults` is the circular buffer with its cursor
`resultIndex` and capacity `maxResults`. -/
structure StressResult where
  TotalRequests : Int
  SuccessfulRequests : Int
  FailedRequests : Int
  TotalDuration : Int
  StartTime : Int
  EndTime : Int
  MinResponseTime : Int
  MaxResponseTime : Int
  TotalResponseTime : Int
  P50ResponseTime : Int
  P90ResponseTime : Int
  P99ResponseTime : Int
  statusCodes : Int → Int
  errorCounts : List Char → Int
  DetailedResults : List RequestResult
  resultIndex : Nat
  maxResults : Nat

/-- NewStressResult (result.go lines 60-68): zeroed statistics, empty
tables and buffer, `MinResponseTime` set to the one-hour sentinel,
`maxResults` 10000. -/
def NewStressResult : StressResult where
  TotalRequests := 0
  SuccessfulRequests := 0
  FailedRequests := 0
  TotalDuration := 0
  StartTime := 0
  EndTime := 0
  MinResponseTime := timeHour
  MaxResponseTime := 0
  TotalResponseTime := 0
  P50ResponseTime := 0
  P90ResponseTime := 0
  P99ResponseTime := 0
  statusCodes := fun _ => 0
  errorCounts := fun _ => 0
  DetailedResults := []
  resultIndex := 0
  maxResults := 10000

/-- StressResult.AddResult (result.go lines 71-113), written field-wise:
total and latency-sum always increase; on success the status-code table
and the min/max extremes are updated, on failure the error table; the
detailed-results circular buffer appends while below `maxResults` and
otherwise overwrites at the cursor and advances it modulo `maxResults`. -/
def AddResult (sr : StressResult) (r : RequestResult) : StressResult where
  TotalRequests := sr.TotalRequests + 1
  SuccessfulRequests := if r.success then sr.SuccessfulRequests + 1 else sr.SuccessfulRequests
  FailedRequests := if r.success then sr.FailedRequests else sr.FailedRequests + 1
  TotalDuration := sr.TotalDuration
  StartTime := sr.StartTime
  EndTime := sr.EndTime
  MinResponseTime :=
    if r.success ∧ (r.duration < sr.MinResponseTime ∨ sr.MinResponseTime = timeHour) then
      r.duration
    else sr.MinResponseTime
  MaxResponseTime :=
    if r.success ∧ sr.MaxResponseTime < r.duration then r.duration else sr.MaxResponseTime
  TotalResponseTime := sr.TotalResponseTime + r.duration
  P50ResponseTime := sr.P50ResponseTime
  P90ResponseTime := sr.P90ResponseTime
  P99ResponseTime := sr.P99ResponseTime
  statusCodes :=
    if r.success then
      fun c => if c = r.statusCode then sr.statusCodes c + 1 else sr.statusCodes c
    else sr.statusCodes
  errorCounts :=
    if r.success then sr.errorCounts
    else fun e => if e = r.error then sr.errorCounts e + 1 else sr.errorCounts e
  DetailedResults :=
    if sr.DetailedResults.length < sr.maxResults then sr.DetailedResults ++ [r]
    else sr.DetailedResults.set sr.resultIndex r
  resultIndex :=
    if sr.DetailedResults.length < sr.maxResults then sr.resultIndex
    else (sr.resultIndex + 1) % sr.maxResults
  maxResults := sr.maxResults

/-- Folding a whole arrival sequence of outcomes through `AddResult`. -/
def recordAll (rs : List RequestResult) (sr : StressResult) : StressResult :=
  rs.foldl AddResult sr

/-- StressResult.GetMinResponseTime (result.go lines 258-265): reports
zero while the minimum still holds the one-hour sentinel. -/
def GetMinResponseTime (sr : StressResult) : Int :=
  if sr.MinResponseTime = timeHour then 0 else sr.MinResponseTime

/-- StressResult.GetMaxResponseTime (result.go lines 268-272). -/
def GetMaxResponseTime (sr : StressResult) : Int :=
  sr.MaxResponseTime

/-- StressResult.SetMaxResults (result.go lines 275-284): install a new
capacity, truncating the buffer and resetting the cursor if it already
holds more entries than the new capacity. -/
def SetMaxResults (sr : StressResult) (max : Nat) : StressResult :=
  if max < sr.DetailedResults.length then
    { sr with maxResults := max, DetailedResults := sr.DetailedResults.take max, resultIndex := 0 }
  else
    { sr with maxResults := max }

/-- Extraction of the durations of the successful outcomes held in the
detailed-results buffer (result.go lines 174-179). -/
def successDurations (results : List RequestResult) : List Int :=
  (results.filter (fun r => r.success)).map (fun r => r.duration)

/-- Stride down-sampling of a large sample (result.go lines 186-193):
when more than 10000 response times were collected, keep the 10000
entries at indices `i * (length / 10000)`. -/
def sampleTimes (l : List Int) : List Int :=
  if 10000 < l.length then
    (List.range 10000).map (fun i => l.getD (i * (l.length / 10000)) 0)
  else l

/-- Ascending sort of the response times (result.go lines 196-198); the
source uses an unstable comparison sort, which on integer durations
yields the unique ascendingly sorted permutation, here modelled by
insertion sort. -/
def sortDurations (l : List Int) : List Int :=
  l.insertionSort (fun a b => a ≤ b)

/-- Exact-rational value computed by calculatePercentile (result.go
lines 207-222) before the final conversion to `time.Duration`:
rank `percentile * (n - 1)`, `lower` its truncation, early return of
`sortedData[lower]` when `lower + 1` falls outside the data, otherwise
linear interpolation weighted by the fractional part of the rank. -/
def calculatePercentileRat (sortedData : List Int) (percentile : ℚ) : ℚ :=
  if sortedData.length = 0 then 0
  else
    let index : ℚ := percentile * ((sortedData.length : ℚ) - 1)
    let lower : Int := ratTrunc index
    let upper : Int := lower + 1
    if (sortedData.length : Int) ≤ upper then (sortedData.getD lower.toNat 0 : ℚ)
    else
      let weight : ℚ := index - (lower : ℚ)
      (sortedData.getD lower.toNat 0 : ℚ) * (1 - weight) +
        (sortedData.getD upper.toNat 0 : ℚ) * weight

/-- calculatePercentile (result.go lines 207-222) including the final
`time.Duration(...)` conversion. -/
def calculatePercentile (sortedData : List Int) (percentile : ℚ) : Int :=
  ratTrunc (calculatePercentileRat sortedData percentile)

/-- StressResult.calculatePercentiles (result.go lines 165-204): no-op
on an empty buffer or when no successful outcome is retained; otherwise
down-sample, sort, and fill the three percentile fields. -/
def calculatePercentiles (sr : StressResult) : StressResult :=
  if sr.DetailedResults.length = 0 then sr
  else
    let responseTimes := successDurations sr.DetailedResults
    if responseTimes.length = 0 then sr
    else
      let sorted := sortDurations (sampleTimes responseTimes)
      { sr with
        P50ResponseTime := calculatePercentile sorted (50 / 100)
        P90ResponseTime := calculatePercentile sorted (90 / 100)
        P99ResponseTime := calculatePercentile sorted (99 / 100) }

/-- StressResult.CalculateMetrics (result.go lines 157-162). -/
def CalculateMetrics (sr : StressResult) : StressResult :=
  calculatePercentiles { sr with TotalDuration := sr.EndTime - sr.StartTime }

/-- The observable part of a resty response consumed by the worker:
status code, status line text, body bytes. -/
structure RestyResponse where
  statusCode : Int
  statusText : List Char
  body : List Nat
  deriving DecidableEq, Repr

/-- Worker.sanitizeError (worker.go lines 161-174) on the error text:
error text longer than 200 characters is cut to 197 and an ellipsis is
appended. -/
def sanitizeError (errorMsg : List Char) : List Char :=
  if 200 < errorMsg.length then errorMsg.take 197 ++ ('.' :: '.' :: ['.']) else errorMsg

/-- The formatted status line written by worker.go line 140. -/
def httpStatusLine (code : Int) (statusText : List Char) : List Char :=
  "HTTP ".toList ++ (toString code).toList ++ ": ".toList ++ statusText

/-- Worker.recordResult (worker.go lines 122-145): a transport error
gives a failed outcome carrying the sanitized error text; a response
first records status code and body size, then is reclassified as failed
with a formatted status line when the status code is at least 400. -/
def recordResult (err : Option (List Char)) (resp : RestyResponse) (duration : Int) :
    RequestResult :=
  match err with
  | some e =>
    { duration := duration, statusCode := 0, success := false
      error := sanitizeError e, responseSize := 0 }
  | none =>
    if 400 ≤ resp.statusCode then
      { duration := duration, statusCode := resp.statusCode, success := false
        error := httpStatusLine resp.statusCode resp.statusText
        responseSize := resp.body.length }
    else
      { duration := duration, statusCode := resp.statusCode, success := true
        error := [], responseSize := resp.body.length }

/-- One parameter row: Go `map[string]string`, modelled as an
association list of column name and value. -/
abbrev ParamRow := List (String × String)

/-- CSVParser (csv.go lines 11-15): parsed rows plus the cached row
count; headers are irrelevant to the claims and omitted. -/
structure CSVParser where
  data : List ParamRow
  rowCount : Nat

/-- Construction result of NewCSVParser (csv.go lines 57-61): the cached
row count equals the number of data rows. -/
def mkCSVParser (rows : List ParamRow) : CSVParser where
  data := rows
  rowCount := rows.length

/-- CSVParser.GetRow (csv.go lines 70-80): nil on an empty data set,
otherwise cyclic indexing by the index modulo the row count. -/
def GetRow (p : CSVParser) (index : Nat) : Option ParamRow :=
  if p.data.length = 0 then none
  else if 0 < p.rowCount then p.data.get? (index % p.rowCount)
  else p.data.get? (index % p.data.length)

/-- CSVParser.RowCount (csv.go lines 83-88). -/
def RowCount (p : CSVParser) : Nat :=
  if 0 < p.rowCount then p.rowCount else p.data.length

/-- Row selection of Worker.makeRequest (worker.go lines 66-70): each
worker owns its `requestID` counter, atomically pre-incremented, so the
k-th request of one worker (k counted from 0) reads `GetRow k`. -/
def workerRowAt (p : CSVParser) (k : Nat) : Option ParamRow :=
  GetRow p k

/-- Number of work signals before signal `i` handled by the same worker
as signal `i`, under a pool schedule assigning a worker id to every
signal. This is the value of that worker's counter when it processes
signal `i`, since each `Worker` value carries its own `requestID` field
(worker.go lines 17-25, engine.go lines 148-157). -/
def poolCounterAt (schedule : List Nat) (i : Nat) : Nat :=
  ((schedule.take i).filter (fun w => w = schedule.getD i 0)).length

/-- Parameter row used by the i-th work signal of the pool overall,
under a given schedule of signals to workers. -/
def poolRowUsed (p : CSVParser) (schedule : List Nat) (i : Nat) : Option ParamRow :=
  GetRow p (poolCounterAt schedule i)

/-- Engine configuration fields consulted by Config.validate; the
remaining fields of types.StressConfig play no role in the claims. -/
structure Config where
  url : String
  method : String
  totalRequests : Int
  concurrency : Int
  duration : Int

/-- The valid HTTP methods table of Config.validate. -/
def validMethods : List String :=
  ["GET", "POST", "PUT", "DELETE", "PATCH", "HEAD", "OPTIONS"]

/-- Go strings.ToUpper on a method name, modelled character-wise (the
method names involved are ASCII). -/
def toUpperStr (s : String) : String :=
  ⟨s.data.map Char.toUpper⟩

/-- Config.validate (config part, lines 101-135): first error of the
checked conditions, in source order; `none` means the configuration is
accepted. -/
def validate (c : Config) : Option String :=
  if c.url = "" then some "URL is required"
  else if c.concurrency ≤ 0 then some "concurrency must be positive"
  else if c.duration = 0 ∧ c.totalRequests ≤ 0 then
    some "either duration or total requests must be specified"
  else if 0 < c.duration ∧ 0 < c.totalRequests then
    some "cannot specify both duration and total requests"
  else if toUpperStr c.method ∈ validMethods then none
  else some ("invalid HTTP method: " ++ c.method)

/-- Config.IsDurationBased (config part). -/
def IsDurationBased (c : Config) : Bool :=
  decide (0 < c.duration)

/-- Observable engine lifecycle state for StressEngine.Stop: the CAS
flag `stopped`, whether the shared context has been cancelled, and how
many times the cancellation signal has been raised. -/
structure EngineState where
  stopped : Bool
  cancelled : Bool
  cancelCount : Nat
  deriving DecidableEq, Repr

/-- Engine state after NewStressEngine: not stopped, context alive. -/
def newEngineState : EngineState where
  stopped := false
  cancelled := false
  cancelCount := 0

/-- StressEngine.Stop (engine.go lines 264-271): a compare-and-swap of
`stopped` from 0 to 1 guards the single call of the context cancel
function; a failed swap does nothing. -/
def Stop (e : EngineState) : EngineState :=
  if e.stopped = false then
    { stopped := true, cancelled := true, cancelCount := e.cancelCount + 1 }
  else e

/-- Default outcome used as the out-of-range placeholder of `List.getD`
when inspecting the buffer; never actually selected in the theorems. -/
def dummyResult : RequestResult where
  duration := 0
  statusCode := 0
  success := false
  error := []
  responseSize := 0

/-- Least element of a duration list, or the one-hour sentinel for an
empty list; used to state what `MinResponseTime` tracks. -/
def minD (l : List Int) : Int :=
  match l with
  | [] => timeHour
  | x :: xs => xs.foldl min x

/-- Greatest element of a duration list, or zero for an empty list; used
to state what `MaxResponseTime` tracks. -/
def maxD (l : List Int) : Int :=
  match l with
  | [] => 0
  | x :: xs => xs.foldl max x

/-- Modelled from the spec, for the refinement claim about percentile
computation: fixed-stride deterministic down-sampling to 10000 elements
when the retained count exceeds 10000 ("deterministically down-sample
via fixed stride before sorting"). -/
def specStride (l : List Int) : List Int :=
  if 10000 < l.length then
    (List.range 10000).map (fun i => l.getD (i * (l.length / 10000)) 0)
  else l

/-- Modelled from the spec, for the refinement claim about percentile
computation: rank `p * (n - 1)`, `lo = floor rank`, `hi = lo + 1`
clamped to `n - 1`, linear interpolation between the lo-th and hi-th
sorted values weighted by the fractional part of the rank. -/
def specPercentile (sorted : List Int) (p : ℚ) : ℚ :=
  let n := sorted.length
  let rank : ℚ := p * ((n : ℚ) - 1)
  let lo : Nat := (⌊rank⌋).toNat
  let hi : Nat := min (lo + 1) (n - 1)
  let w : ℚ := rank - (lo : ℚ)
  (sorted.getD lo 0 : ℚ) * (1 - w) + (sorted.getD hi 0 : ℚ) * w

/-- Modelled from the spec, for the validation claim: the configurations
the claim says must be rejected — missing target URL, non-positive
concurrency, both of duration and total-count specified, neither
specified, or an HTTP method outside the allowed set. A load mode
counts as specified when its value is positive, matching the spec's
duration-based test criterion `Duration > 0`. -/
def specValidationFails (c : Config) : Prop :=
  c.url = "" ∨ c.concurrency ≤ 0 ∨
    (0 < c.duration ∧ 0 < c.totalRequests) ∨
    (c.duration ≤ 0 ∧ c.totalRequests ≤ 0) ∨
    toUpperStr c.method ∉ validMethods

instance (c : Config) : Decidable (specValidationFails c) := by
  unfold specValidationFails
  infer_instance

/-- A full run through the worker pipeline: every transport result
(error text option, response, elapsed duration) is classified by
`recordResult` and merged into a fresh aggregator, as in Worker.Run and
StressEngine.Run. -/
def aggregateRun (inputs : List (Option (List Char) × RestyResponse × Int)) : StressResult :=
  recordAll (inputs.map (fun t => recordResult t.1 t.2.1 t.2.2)) NewStressResult

/-! Shared lemmas about folding outcomes through the aggregator. -/

theorem recordAll_cons (r : RequestResult) (rs : List RequestResult) (sr : StressResult) :
    recordAll (r :: rs) sr = recordAll rs (AddResult sr r) := rfl

theorem recordAll_append_one (rs : List RequestResult) (r : RequestResult) (sr : StressResult) :
    recordAll (rs ++ [r]) sr = AddResult (recordAll rs sr) r := by
  simp [recordAll, List.foldl_append]

theorem recordAll_balance (rs : List RequestResult) : ∀ sr : StressResult,
    (recordAll rs sr).TotalRequests - (recordAll rs sr).SuccessfulRequests
        - (recordAll rs sr).FailedRequests
      = sr.TotalRequests - sr.SuccessfulRequests - sr.FailedRequests := by
  induction rs with
  | nil => intro sr; rfl
  | cons r rs ih =>
    intro sr
    rw [recordAll_cons, ih]
    by_cases h : r.success
    · simp [AddResult, h]
    · simp [AddResult, h]
      ring

/-- C4: after every AddResult call, TotalRequests equals
SuccessfulRequests plus FailedRequests; each recorded outcome increments
the total count by one and exactly one of the success or failure counts
by one. -/
theorem claim_C4 (sr : StressResult) (r : RequestResult) (rs : List RequestResult) :
    (AddResult sr r).TotalRequests = sr.TotalRequests + 1 ∧
    (AddResult sr r).SuccessfulRequests
      = (if r.success then sr.SuccessfulRequests + 1 else sr.SuccessfulRequests) ∧
    (AddResult sr r).FailedRequests
      = (if r.success then sr.FailedRequests else sr.FailedRequests + 1) ∧
    (recordAll rs NewStressResult).TotalRequests
      = (recordAll rs NewStressResult).SuccessfulRequests
        + (recordAll rs NewStressResult).FailedRequests := by
  refine ⟨rfl, rfl, rfl, ?_⟩
  have h := recordAll_balance rs NewStressResult
  have e1 : NewStressResult.TotalRequests = 0 := rfl
  have e2 : NewStressResult.SuccessfulRequests = 0 := rfl
  have e3 : NewStressResult.FailedRequests = 0 := rfl
  rw [e1, e2, e3] at h
  omega

/-- C9: Stop is idempotent — any number of calls at least one has the
same observable effect on the engine state as a single call, and the
cancellation signal is raised exactly once from a fresh engine. -/
theorem claim_C9 (e : EngineState) (n : Nat) (hn : 1 ≤ n) :
    Stop (Stop e) = Stop e ∧ Stop^[n] e = Stop e ∧
      (Stop^[n] newEngineState).cancelCount = 1 := by
  have hidem : ∀ s : EngineState, Stop (Stop s) = Stop s := by
    intro s
    by_cases h : s.stopped = false <;> simp [Stop, h]
  have hiter : ∀ m : Nat, ∀ s : EngineState, Stop^[m + 1] s = Stop s := by
    intro m
    induction m with
    | zero => intro s; simp
    | succ k ih =>
      intro s
      rw [Function.iterate_succ_apply, ih (Stop s), hidem]
  obtain ⟨m, rfl⟩ : ∃ m, n = m + 1 := ⟨n - 1, by omega⟩
  exact ⟨hidem e, hiter m e, by rw [hiter m newEngineState]; rfl⟩

/-- C9 witness: two calls of Stop on a fresh engine coincide with one
and leave the cancellation count at exactly one. -/
theorem claim_C9_witness :
    (1 ≤ 2) ∧
      (Stop (Stop newEngineState) = Stop newEngineState ∧
        Stop^[2] newEngineState = Stop newEngineState ∧
        (Stop^[2] newEngineState).cancelCount = 1) :=
  ⟨by decide, claim_C9 newEngineState 2 (by decide)⟩

/-- C6: outcome classification — a transport error yields a failed
outcome whose error text is the sanitized input, never longer than 200
characters; a received response records its status code and body size,
is successful exactly when the status code is below 400, and carries the
formatted status line as its error text exactly when the status code is
at least 400. -/
theorem claim_C6 (e : List Char) (resp : RestyResponse) (d : Int) :
    (recordResult (some e) resp d).success = false ∧
    (recordResult (some e) resp d).error = sanitizeError e ∧
    (recordResult (some e) resp d).error.length ≤ 200 ∧
    (recordResult none resp d).statusCode = resp.statusCode ∧
    (recordResult none resp d).responseSize = resp.body.length ∧
    (recordResult none resp d).success = decide (resp.statusCode < 400) ∧
    (recordResult none resp d).error
      = (if 400 ≤ resp.statusCode then httpStatusLine resp.statusCode resp.statusText
          else []) := by
  refine ⟨rfl, rfl, ?_, ?_, ?_, ?_, ?_⟩
  · show (sanitizeError e).length ≤ 200
    unfold sanitizeError
    split_ifs with h
    · simp only [List.length_append, List.length_take, List.length_cons, List.length_nil]
      omega
    · omega
  · show (recordResult none resp d).statusCode = resp.statusCode
    simp only [recordResult]
    split_ifs <;> rfl
  · show (recordResult none resp d).responseSize = resp.body.length
    simp only [recordResult]
    split_ifs <;> rfl
  · show (recordResult none resp d).success = decide (resp.statusCode < 400)
    simp only [recordResult]
    split_ifs with h
    · have hlt : ¬ (resp.statusCode < 400) := by omega
      simp [hlt]
    · have hlt : resp.statusCode < 400 := by omega
      simp [hlt]
  · show (recordResult none resp d).error = _
    simp only [recordResult]
    split_ifs <;> rfl

theorem recordAll_statusCodes (rs : List RequestResult) : ∀ (sr : StressResult) (c : Int),
    (recordAll rs sr).statusCodes c
      = sr.statusCodes c
        + ((rs.filter (fun r => r.success && decide (r.statusCode = c))).length : Int) := by
  induction rs with
  | nil => intro sr c; simp [recordAll]
  | cons r rs ih =>
    intro sr c
    rw [recordAll_cons, ih]
    by_cases h : r.success
    · by_cases hc : r.statusCode = c
      · simp [AddResult, h, hc, List.filter_cons]
        ring
      · have hc2 : ¬ c = r.statusCode := fun hh => hc hh.symm
        simp [AddResult, h, hc, hc2, List.filter_cons]
    · simp [AddResult, h, List.filter_cons]

theorem recordAll_errorCounts (rs : List RequestResult) : ∀ (sr : StressResult) (e : List Char),
    (recordAll rs sr).errorCounts e
      = sr.errorCounts e
        + ((rs.filter (fun r => !r.success && decide (r.error = e))).length : Int) := by
  induction rs with
  | nil => intro sr e; simp [recordAll]
  | cons r rs ih =>
    intro sr e
    rw [recordAll_cons, ih]
    by_cases h : r.success
    · simp [AddResult, h, List.filter_cons]
    · by_cases he : r.error = e
      · simp [AddResult, h, he, List.filter_cons]
        ring
      · have he2 : ¬ e = r.error := fun hh => he hh.symm
        simp [AddResult, h, he, he2, List.filter_cons]

theorem recordResult_success_lt (err : Option (List Char)) (resp : RestyResponse) (d : Int) :
    (recordResult err resp d).success = true → (recordResult err resp d).statusCode < 400 := by
  cases err with
  | some e => intro h; exact absurd h (by simp [recordResult])
  | none =>
    simp only [recordResult]
    split_ifs with h
    · intro hh; exact absurd hh (by simp)
    · intro _
      show resp.statusCode < 400
      omega

/-- C10: the status-code table counts exactly the successful outcomes
with the queried code, the error table counts exactly the failed
outcomes with the queried error text, and no status code of 400 or more
is ever a key of the status-code table — an HTTP-error response shows up
only through its formatted error line. -/
theorem claim_C10 (inputs : List (Option (List Char) × RestyResponse × Int))
    (cQ : Int) (eQ : List Char) (cBig : Int) (h400 : 400 ≤ cBig) :
    (aggregateRun inputs).statusCodes cQ
      = (((inputs.map (fun t => recordResult t.1 t.2.1 t.2.2)).filter
          (fun r => r.success && decide (r.statusCode = cQ))).length : Int) ∧
    (aggregateRun inputs).errorCounts eQ
      = (((inputs.map (fun t => recordResult t.1 t.2.1 t.2.2)).filter
          (fun r => !r.success && decide (r.error = eQ))).length : Int) ∧
    (aggregateRun inputs).statusCodes cBig = 0 := by
  refine ⟨?_, ?_, ?_⟩
  · rw [aggregateRun, recordAll_statusCodes]
    simp [NewStressResult]
  · rw [aggregateRun, recordAll_errorCounts]
    simp [NewStressResult]
  · rw [aggregateRun, recordAll_statusCodes]
    have hnil : ((inputs.map (fun t => recordResult t.1 t.2.1 t.2.2)).filter
        (fun r => r.success && decide (r.statusCode = cBig))) = [] := by
      rw [List.filter_eq_nil_iff]
      intro r hr
      obtain ⟨t, _, rfl⟩ := List.mem_map.1 hr
      intro hcontra
      simp only [Bool.and_eq_true, decide_eq_true_eq] at hcontra
      have := recordResult_success_lt t.1 t.2.1 t.2.2 hcontra.1
      omega
    rw [hnil]
    simp [NewStressResult]

/-- C10 witness: a 200 response, a 404 response and a transport failure;
the status table counts the single 200, the error table counts the
formatted 404 line, and 404 is not a key of the status table. -/
theorem claim_C10_witness :
    (400 : Int) ≤ 404 ∧
      ((aggregateRun [(none, ⟨200, [], []⟩, 1), (none, ⟨404, [], []⟩, 1),
          (some ['x'], ⟨0, [], []⟩, 1)]).statusCodes 200
        = ((([(none, ⟨200, [], []⟩, 1), (none, ⟨404, [], []⟩, 1),
            (some ['x'], ⟨0, [], []⟩, 1)].map
              (fun t : Option (List Char) × RestyResponse × Int =>
                recordResult t.1 t.2.1 t.2.2)).filter
            (fun r => r.success && decide (r.statusCode = 200))).length : Int) ∧
      (aggregateRun [(none, ⟨200, [], []⟩, 1), (none, ⟨404, [], []⟩, 1),
          (some ['x'], ⟨0, [], []⟩, 1)]).errorCounts (httpStatusLine 404 [])
        = ((([(none, ⟨200, [], []⟩, 1), (none, ⟨404, [], []⟩, 1),
            (some ['x'], ⟨0, [], []⟩, 1)].map
              (fun t : Option (List Char) × RestyResponse × Int =>
                recordResult t.1 t.2.1 t.2.2)).filter
            (fun r => !r.success && decide (r.error = httpStatusLine 404 []))).length : Int) ∧
      (aggregateRun [(none, ⟨200, [], []⟩, 1), (none, ⟨404, [], []⟩, 1),
          (some ['x'], ⟨0, [], []⟩, 1)]).statusCodes 404 = 0) :=
  ⟨by decide,
    claim_C10 [(none, ⟨200, [], []⟩, 1), (none, ⟨404, [], []⟩, 1),
      (some ['x'], ⟨0, [], []⟩, 1)] 200 (httpStatusLine 404 []) 404 (by decide)⟩

theorem GetRow_mk (rows : List ParamRow) (k : Nat) :
    GetRow (mkCSVParser rows) k = rows.get? (k % rows.length) := by
  unfold GetRow mkCSVParser
  rcases rows with _ | ⟨r, rs⟩
  · simp
  · simp

/-- C1 counterexample: with 3 rows and two workers each having consumed
one work signal (schedule worker 0 then worker 1), the second signal of
the pool overall uses row 0 — each worker owns a private request
counter — while the claimed shared cyclic index would give row 1 mod 3. -/
theorem claim_C1_counterexample :
    ¬ (poolRowUsed (mkCSVParser [[("id", "1")], [("id", "2")], [("id", "3")]]) [0, 1] 1
        = (mkCSVParser [[("id", "1")], [("id", "2")], [("id", "3")]]).data.get? (1 % 3)) := by
  decide

/-- C1 amended: every worker owns its private synchronized cyclic index,
so the k-th signal processed by one worker uses row k mod K (cyclic:
shifting the counter by K returns the same row); when concurrency is 1
the pool order coincides with the single worker's counter, so the i-th
signal of the pool uses row i mod K, and the 3-row, 7-request scenario
observes rows 1,2,3,1,2,3,1 in strict order. -/
theorem claim_C1 (rows : List ParamRow) (k n i w : Nat) (hi : i < n) :
    GetRow (mkCSVParser rows) (k + rows.length) = GetRow (mkCSVParser rows) k ∧
    poolRowUsed (mkCSVParser rows) (List.replicate n w) i
      = rows.get? (i % rows.length) ∧
    (List.range 7).map
        (poolRowUsed (mkCSVParser [[("id", "1")], [("id", "2")], [("id", "3")]])
          (List.replicate 7 0))
      = [some [("id", "1")], some [("id", "2")], some [("id", "3")],
          some [("id", "1")], some [("id", "2")], some [("id", "3")],
          some [("id", "1")]] := by
  refine ⟨?_, ?_, by decide⟩
  · rw [GetRow_mk, GetRow_mk, Nat.add_mod_right]
  · have hcount : poolCounterAt (List.replicate n w) i = i := by
      unfold poolCounterAt
      have hget : (List.replicate n w).getD i 0 = w := by
        rw [List.getD_eq_getElem?_getD, List.getElem?_replicate, if_pos hi]
        rfl
      rw [hget, List.take_replicate]
      have hall : (List.replicate (min i n) w).filter (fun x => decide (x = w))
          = List.replicate (min i n) w := by
        apply List.filter_eq_self.2
        intro a ha
        have := List.eq_of_mem_replicate ha
        simp [this]
      rw [hall, List.length_replicate]
      omega
    rw [poolRowUsed, hcount, GetRow_mk]

/-- C1 witness: the amended statement at a single worker consuming the
first of two signals over a two-row source. -/
theorem claim_C1_witness :
    (0 : Nat) < 2 ∧
      (GetRow (mkCSVParser [[("a", "x")], [("a", "y")]]) (1 + 2)
          = GetRow (mkCSVParser [[("a", "x")], [("a", "y")]]) 1 ∧
        poolRowUsed (mkCSVParser [[("a", "x")], [("a", "y")]]) (List.replicate 2 0) 0
          = [[("a", "x")], [("a", "y")]].get? (0 % 2) ∧
        (List.range 7).map
            (poolRowUsed (mkCSVParser [[("id", "1")], [("id", "2")], [("id", "3")]])
              (List.replicate 7 0))
          = [some [("id", "1")], some [("id", "2")], some [("id", "3")],
              some [("id", "1")], some [("id", "2")], some [("id", "3")],
              some [("id", "1")]]) :=
  ⟨by decide, claim_C1 [[("a", "x")], [("a", "y")]] 1 2 0 0 (by decide)⟩

theorem successDurations_append_one (rs : List RequestResult) (r : RequestResult) :
    successDurations (rs ++ [r])
      = successDurations rs ++ (if r.success then [r.duration] else []) := by
  unfold successDurations
  rw [List.filter_append, List.map_append]
  by_cases h : r.success <;> simp [h]

theorem minD_mem (l : List Int) (h : l ≠ []) : minD l ∈ l := by
  rcases l with _ | ⟨x, xs⟩
  · exact absurd rfl h
  · show xs.foldl min x ∈ x :: xs
    clear h
    induction xs generalizing x with
    | nil => simp
    | cons y ys ih =>
      rw [List.foldl_cons]
      have hmem := ih (min x y)
      rcases List.mem_cons.1 hmem with h1 | h1
      · rw [h1]
        rcases min_choice x y with h2 | h2 <;> rw [h2] <;> simp
      · simp [h1]

theorem minD_append_one (x : Int) (xs : List Int) (d : Int) :
    minD ((x :: xs) ++ [d]) = min (minD (x :: xs)) d := by
  show ((xs ++ [d]).foldl min x) = min (xs.foldl min x) d
  rw [List.foldl_append]
  rfl

theorem maxD_append_one (x : Int) (xs : List Int) (d : Int) :
    maxD ((x :: xs) ++ [d]) = max (maxD (x :: xs)) d := by
  show ((xs ++ [d]).foldl max x) = max (xs.foldl max x) d
  rw [List.foldl_append]
  rfl

theorem mem_successDurations {a : Int} {rs : List RequestResult} :
    a ∈ successDurations rs ↔ ∃ r, r ∈ rs ∧ r.success = true ∧ r.duration = a := by
  simp [successDurations, List.mem_filter, and_assoc]

theorem minmax_aux (rs : List RequestResult) :
    (∀ r ∈ rs, 0 ≤ r.duration) →
    (∀ r ∈ rs, r.success = true → r.duration ≠ timeHour) →
    (recordAll rs NewStressResult).MinResponseTime = minD (successDurations rs) ∧
    (recordAll rs NewStressResult).MaxResponseTime = maxD (successDurations rs) := by
  induction rs using List.reverseRecOn with
  | nil => intro _ _; exact ⟨rfl, rfl⟩
  | append_singleton rs r ih =>
    intro hpos hsent
    have hpos0 : ∀ x ∈ rs, 0 ≤ x.duration := fun x hx => hpos x (List.mem_append_left _ hx)
    have hsent0 : ∀ x ∈ rs, x.success = true → x.duration ≠ timeHour :=
      fun x hx => hsent x (List.mem_append_left _ hx)
    obtain ⟨ihMin, ihMax⟩ := ih hpos0 hsent0
    rw [recordAll_append_one, successDurations_append_one]
    by_cases hr : r.success
    · have hrd : 0 ≤ r.duration := hpos r (by simp)
      have hrh : r.duration ≠ timeHour := hsent r (by simp) hr
      have hMinStep : (AddResult (recordAll rs NewStressResult) r).MinResponseTime
          = if r.duration < (recordAll rs NewStressResult).MinResponseTime ∨
                (recordAll rs NewStressResult).MinResponseTime = timeHour then
              r.duration
            else (recordAll rs NewStressResult).MinResponseTime := by
        simp [AddResult, hr]
      have hMaxStep : (AddResult (recordAll rs NewStressResult) r).MaxResponseTime
          = if (recordAll rs NewStressResult).MaxResponseTime < r.duration then r.duration
            else (recordAll rs NewStressResult).MaxResponseTime := by
        simp [AddResult, hr]
      rw [if_pos hr]
      constructor
      · rw [hMinStep, ihMin]
        rcases heq : successDurations rs with _ | ⟨x, xs⟩
        · simp [minD]
        · have hne : successDurations rs ≠ [] := by rw [heq]; simp
          have hm := minD_mem _ hne
          obtain ⟨rr, hrr, hs, hd⟩ := mem_successDurations.1 hm
          have hMinNe : minD (successDurations rs) ≠ timeHour := by
            rw [← hd]
            exact hsent0 rr hrr hs
          rw [heq] at hMinNe
          rw [minD_append_one]
          split_ifs with hcond
          · rcases hcond with hlt | hhour
            · exact (min_eq_right (le_of_lt hlt)).symm
            · exact absurd hhour hMinNe
          · push_neg at hcond
            exact (min_eq_left hcond.1).symm
      · rw [hMaxStep, ihMax]
        rcases heq : successDurations rs with _ | ⟨x, xs⟩
        · simp [maxD]
          omega
        · rw [maxD_append_one]
          split_ifs with hcond
          · exact (max_eq_right (le_of_lt hcond)).symm
          · exact (max_eq_left (not_lt.1 hcond)).symm
    · have hMinStep : (AddResult (recordAll rs NewStressResult) r).MinResponseTime
          = (recordAll rs NewStressResult).MinResponseTime := by
        simp [AddResult, hr]
      have hMaxStep : (AddResult (recordAll rs NewStressResult) r).MaxResponseTime
          = (recordAll rs NewStressResult).MaxResponseTime := by
        simp [AddResult, hr]
      rw [if_neg hr, List.append_nil, hMinStep, hMaxStep]
      exact ⟨ihMin, ihMax⟩

/-- C8 counterexample: the one-hour sentinel is in-band — after a
successful outcome of exactly one hour followed by one of two hours, the
minimum field holds two hours, not the least successful duration. -/
theorem claim_C8_counterexample :
    ¬ ((recordAll [⟨timeHour, 200, true, [], 0⟩, ⟨2 * timeHour, 200, true, [], 0⟩]
          NewStressResult).MinResponseTime
        = minD (successDurations
            [⟨timeHour, 200, true, [], 0⟩, ⟨2 * timeHour, 200, true, [], 0⟩])) := by
  decide

/-- C8 amended: for runs whose durations are non-negative (elapsed
times) and in which no successful duration equals the one-hour sentinel
exactly, the minimum and maximum fields equal the least and greatest
successful duration (sentinel and zero respectively while no success was
recorded), failed outcomes never change them, and the minimum accessor
reports zero until the first success. -/
theorem claim_C8 (rs : List RequestResult)
    (hpos : ∀ r ∈ rs, 0 ≤ r.duration)
    (hsent : ∀ r ∈ rs, r.success = true → r.duration ≠ timeHour) :
    (recordAll rs NewStressResult).MinResponseTime = minD (successDurations rs) ∧
    (recordAll rs NewStressResult).MaxResponseTime = maxD (successDurations rs) ∧
    GetMinResponseTime (recordAll rs NewStressResult)
      = (if successDurations rs = [] then 0 else minD (successDurations rs)) := by
  obtain ⟨h1, h2⟩ := minmax_aux rs hpos hsent
  refine ⟨h1, h2, ?_⟩
  rw [GetMinResponseTime, h1]
  rcases heq : successDurations rs with _ | ⟨x, xs⟩
  · simp [minD]
  · have hne : successDurations rs ≠ [] := by rw [heq]; simp
    have hm := minD_mem _ hne
    obtain ⟨rr, hrr, hs, hd⟩ := mem_successDurations.1 hm
    have hMinNe : minD (successDurations rs) ≠ timeHour := by
      rw [← hd]
      exact hsent rr hrr hs
    rw [heq] at hMinNe
    simp [hMinNe]

/-- C8 witness: one success of five nanoseconds and one failure; both
extremes equal five and the accessor reports it. -/
theorem claim_C8_witness :
    (∀ r ∈ [(⟨5, 200, true, [], 0⟩ : RequestResult), ⟨3, 0, false, ['x'], 0⟩],
        0 ≤ r.duration) ∧
    (∀ r ∈ [(⟨5, 200, true, [], 0⟩ : RequestResult), ⟨3, 0, false, ['x'], 0⟩],
        r.success = true → r.duration ≠ timeHour) ∧
    ((recordAll [⟨5, 200, true, [], 0⟩, ⟨3, 0, false, ['x'], 0⟩]
          NewStressResult).MinResponseTime
        = minD (successDurations [⟨5, 200, true, [], 0⟩, ⟨3, 0, false, ['x'], 0⟩]) ∧
      (recordAll [⟨5, 200, true, [], 0⟩, ⟨3, 0, false, ['x'], 0⟩]
          NewStressResult).MaxResponseTime
        = maxD (successDurations [⟨5, 200, true, [], 0⟩, ⟨3, 0, false, ['x'], 0⟩]) ∧
      GetMinResponseTime
          (recordAll [⟨5, 200, true, [], 0⟩, ⟨3, 0, false, ['x'], 0⟩] NewStressResult)
        = (if successDurations [⟨5, 200, true, [], 0⟩, ⟨3, 0, false, ['x'], 0⟩]
              = ([] : List Int) then 0
            else minD (successDurations
              [⟨5, 200, true, [], 0⟩, ⟨3, 0, false, ['x'], 0⟩]))) :=
  ⟨by decide, by decide,
    claim_C8 [⟨5, 200, true, [], 0⟩, ⟨3, 0, false, ['x'], 0⟩] (by decide) (by decide)⟩

theorem buffer_aux (m : Nat) (hm : 0 < m) (rs : List RequestResult) :
    (recordAll rs (SetMaxResults NewStressResult m)).maxResults = m ∧
    (recordAll rs (SetMaxResults NewStressResult m)).DetailedResults.length
      = min rs.length m ∧
    (recordAll rs (SetMaxResults NewStressResult m)).resultIndex = (rs.length - m) % m ∧
    (∀ i : Nat, i < rs.length → rs.length ≤ i + m →
      (recordAll rs (SetMaxResults NewStressResult m)).DetailedResults.getD (i % m)
          dummyResult
        = rs.getD i dummyResult) := by
  induction rs using List.reverseRecOn with
  | nil =>
    refine ⟨?_, ?_, ?_, ?_⟩
    · simp [recordAll, SetMaxResults, NewStressResult]
    · simp [recordAll, SetMaxResults, NewStressResult]
    · simp [recordAll, SetMaxResults, NewStressResult]
    · intro i h1 _
      exact absurd h1 (Nat.not_lt_zero i)
  | append_singleton rs r ih =>
    obtain ⟨ihMax, ihLen, ihIdx, ihSlot⟩ := ih
    rw [recordAll_append_one]
    set s := recordAll rs (SetMaxResults NewStressResult m) with hs
    have hsMax : (AddResult s r).maxResults = s.maxResults := rfl
    have hlenApp : (rs ++ [r]).length = rs.length + 1 := by simp
    by_cases hn : rs.length < m
    · have hcond : s.DetailedResults.length < s.maxResults := by
        rw [ihLen, ihMax]
        omega
      have hbuf : (AddResult s r).DetailedResults = s.DetailedResults ++ [r] := by
        simp [AddResult, hcond]
      have hidx : (AddResult s r).resultIndex = s.resultIndex := by
        simp [AddResult, hcond]
      have hbufLen : s.DetailedResults.length = rs.length := by
        rw [ihLen]
        omega
      refine ⟨by rw [hsMax, ihMax], ?_, ?_, ?_⟩
      · rw [hbuf, List.length_append, ihLen, hlenApp]
        simp only [List.length_cons, List.length_nil]
        omega
      · rw [hidx, ihIdx, hlenApp]
        have e1 : rs.length - m = 0 := by omega
        have e2 : rs.length + 1 - m = 0 := by omega
        rw [e1, e2]
      · intro i h1 h2
        rw [hlenApp] at h1 h2
        rcases Nat.lt_or_ge i rs.length with hi | hi
        · have him : i % m = i := Nat.mod_eq_of_lt (by omega)
          have hL : (s.DetailedResults ++ [r]).getD (i % m) dummyResult
              = s.DetailedResults.getD (i % m) dummyResult := by
            rw [List.getD_eq_getElem?_getD, List.getD_eq_getElem?_getD,
              List.getElem?_append_left (by rw [hbufLen, him]; omega)]
          have hR : (rs ++ [r]).getD i dummyResult = rs.getD i dummyResult := by
            rw [List.getD_eq_getElem?_getD, List.getD_eq_getElem?_getD,
              List.getElem?_append_left hi]
          rw [hbuf, hL, hR]
          exact ihSlot i hi (by omega)
        · have hieq : i = rs.length := by omega
          have him : i % m = i := Nat.mod_eq_of_lt (by omega)
          have hA : (s.DetailedResults ++ [r])[i]? = some r := by
            rw [hieq, ← hbufLen]
            exact List.getElem?_concat_length _ _
          have hB : (rs ++ [r])[i]? = some r := by
            rw [hieq]
            exact List.getElem?_concat_length _ _
          rw [hbuf, him, List.getD_eq_getElem?_getD, List.getD_eq_getElem?_getD, hA, hB]
    · push_neg at hn
      have hlenm : s.DetailedResults.length = m := by
        rw [ihLen]
        omega
      have hcond : ¬ s.DetailedResults.length < s.maxResults := by
        rw [hlenm, ihMax]
        omega
      have hbuf : (AddResult s r).DetailedResults = s.DetailedResults.set s.resultIndex r := by
        simp [AddResult, hcond]
      have hidx : (AddResult s r).resultIndex = (s.resultIndex + 1) % s.maxResults := by
        simp [AddResult, hcond]
      have hnm : rs.length % m = (rs.length - m) % m := Nat.mod_eq_sub_mod hn
      refine ⟨by rw [hsMax, ihMax], ?_, ?_, ?_⟩
      · rw [hbuf, List.length_set, hlenm, hlenApp]
        omega
      · rw [hidx, ihIdx, ihMax, hlenApp, Nat.mod_add_mod]
        have e1 : rs.length - m + 1 = rs.length + 1 - m := by omega
        rw [e1]
      · intro i h1 h2
        rw [hlenApp] at h1 h2
        rcases Nat.lt_or_ge i rs.length with hi | hi
        · have hne2 : s.resultIndex ≠ i % m := by
            rw [ihIdx, ← hnm]
            intro hEq
            have hdvd : m ∣ rs.length - i :=
              (Nat.modEq_iff_dvd' (le_of_lt hi)).1 hEq.symm
            have hp : 0 < rs.length - i := by omega
            exact absurd (Nat.le_of_dvd hp hdvd) (by omega)
          have hL : (s.DetailedResults.set s.resultIndex r).getD (i % m) dummyResult
              = s.DetailedResults.getD (i % m) dummyResult := by
            rw [List.getD_eq_getElem?_getD, List.getD_eq_getElem?_getD,
              List.getElem?_set_ne hne2]
          have hR : (rs ++ [r]).getD i dummyResult = rs.getD i dummyResult := by
            rw [List.getD_eq_getElem?_getD, List.getD_eq_getElem?_getD,
              List.getElem?_append_left hi]
          rw [hbuf, hL, hR]
          exact ihSlot i hi (by omega)
        · have hieq : i = rs.length := by omega
          have hSetPos : s.resultIndex = i % m := by rw [ihIdx, hieq, ← hnm]
          have hltm : i % m < s.DetailedResults.length := by
            rw [hlenm]
            exact Nat.mod_lt _ hm
          have hL : (s.DetailedResults.set s.resultIndex r).getD (i % m) dummyResult
              = r := by
            rw [hSetPos, List.getD_eq_getElem?_getD, List.getElem?_set_self hltm]
            rfl
          have hB : (rs ++ [r]).getD i dummyResult = r := by
            rw [List.getD_eq_getElem?_getD, hieq, List.getElem?_concat_length]
            rfl
          rw [hbuf, hL, hB]

/-- C2: with capacity maxResults = m, after recording any arrival
sequence the buffer length is the minimum of the arrival count and m
(never more than m); the cursor sits at (count - m) mod m; every outcome
among the last m arrivals (for short sequences: every outcome, in
arrival order at its own index) occupies slot (arrival index mod m); and
distinct window indices occupy distinct slots — the buffer holds exactly
the most recently arrived m outcomes. -/
theorem claim_C2 (m : Nat) (hm : 0 < m) (rs : List RequestResult)
    (i j : Nat) (hi1 : i < rs.length) (hi2 : rs.length ≤ i + m)
    (hj1 : j < rs.length) (hj2 : rs.length ≤ j + m) (hcol : i % m = j % m) :
    (recordAll rs (SetMaxResults NewStressResult m)).DetailedResults.length
      = min rs.length m ∧
    (recordAll rs (SetMaxResults NewStressResult m)).resultIndex = (rs.length - m) % m ∧
    (recordAll rs (SetMaxResults NewStressResult m)).DetailedResults.getD (i % m)
        dummyResult
      = rs.getD i dummyResult ∧
    i = j := by
  obtain ⟨_, hLen, hIdx, hSlot⟩ := buffer_aux m hm rs
  refine ⟨hLen, hIdx, hSlot i hi1 hi2, ?_⟩
  have key : ∀ a b : Nat, a < b → b < rs.length → rs.length ≤ a + m →
      a % m = b % m → False := by
    intro a b hab hbn han hmod
    have hdvd : m ∣ b - a := (Nat.modEq_iff_dvd' (le_of_lt hab)).1 hmod
    have hp : 0 < b - a := by omega
    exact absurd (Nat.le_of_dvd hp hdvd) (by omega)
  rcases Nat.lt_trichotomy i j with h | h | h
  · exact (key i j h hj1 hi2 hcol).elim
  · exact h
  · exact (key j i h hi1 hj2 hcol.symm).elim

/-- C2 witness: capacity two, three arrivals; the buffer keeps the last
two outcomes, the cursor sits at one, and arrival index two occupies
slot zero. -/
theorem claim_C2_witness :
    (0 : Nat) < 2 ∧ (2 : Nat) < 3 ∧ (3 : Nat) ≤ 2 + 2 ∧ (2 : Nat) % 2 = 2 % 2 ∧
      ((recordAll [⟨1, 0, false, [], 0⟩, ⟨2, 0, false, [], 0⟩, ⟨3, 0, false, [], 0⟩]
            (SetMaxResults NewStressResult 2)).DetailedResults.length
          = min
              ([⟨1, 0, false, [], 0⟩, ⟨2, 0, false, [], 0⟩,
                (⟨3, 0, false, [], 0⟩ : RequestResult)] : List RequestResult).length 2 ∧
        (recordAll [⟨1, 0, false, [], 0⟩, ⟨2, 0, false, [], 0⟩, ⟨3, 0, false, [], 0⟩]
            (SetMaxResults NewStressResult 2)).resultIndex
          = (([⟨1, 0, false, [], 0⟩, ⟨2, 0, false, [], 0⟩,
              (⟨3, 0, false, [], 0⟩ : RequestResult)] : List RequestResult).length - 2) % 2 ∧
        (recordAll [⟨1, 0, false, [], 0⟩, ⟨2, 0, false, [], 0⟩, ⟨3, 0, false, [], 0⟩]
            (SetMaxResults NewStressResult 2)).DetailedResults.getD (2 % 2) dummyResult
          = ([⟨1, 0, false, [], 0⟩, ⟨2, 0, false, [], 0⟩,
              (⟨3, 0, false, [], 0⟩ : RequestResult)] : List RequestResult).getD 2
              dummyResult ∧
        (2 : Nat) = 2) :=
  ⟨by decide, by decide, by decide, by decide,
    claim_C2 2 (by decide)
      [⟨1, 0, false, [], 0⟩, ⟨2, 0, false, [], 0⟩, ⟨3, 0, false, [], 0⟩] 2 2
      (by decide) (by decide) (by decide) (by decide) (by decide)⟩

theorem ratTrunc_eq_floor (q : ℚ) (h : 0 ≤ q) : ratTrunc q = ⌊q⌋ :=
  if_pos h

theorem ratTrunc_mono {a b : ℚ} (h : a ≤ b) : ratTrunc a ≤ ratTrunc b := by
  unfold ratTrunc
  split_ifs with h1 h2 h2
  · exact Int.floor_le_floor h
  · linarith
  · calc ⌈a⌉ ≤ 0 := Int.ceil_le.mpr (by exact_mod_cast le_of_not_le h1)
    _ ≤ ⌊b⌋ := Int.floor_nonneg.2 h2
  · exact Int.ceil_le_ceil h

theorem sorted_sortDurations (l : List Int) :
    (sortDurations l).Sorted (fun a b => a ≤ b) :=
  List.sorted_insertionSort _ l

theorem length_sortDurations (l : List Int) : (sortDurations l).length = l.length :=
  List.length_insertionSort _ l

theorem length_sampleTimes_ne (l : List Int) (h : l.length ≠ 0) :
    (sampleTimes l).length ≠ 0 := by
  unfold sampleTimes
  split_ifs with hbig
  · simp
  · exact h

theorem sortedGetD_mono (l : List Int) (hs : l.Sorted (fun a b => a ≤ b)) {i j : Nat}
    (hij : i ≤ j) (hj : j < l.length) : l.getD i 0 ≤ l.getD j 0 := by
  have hi : i < l.length := Nat.lt_of_le_of_lt hij hj
  have hrel := List.Sorted.rel_get_of_le hs
    (a := ⟨i, hi⟩) (b := ⟨j, hj⟩) (Fin.mk_le_mk.2 hij)
  rw [List.getD_eq_getElem?_getD, List.getD_eq_getElem?_getD,
    List.getElem?_eq_getElem hi, List.getElem?_eq_getElem hj]
  simpa [List.get_eq_getElem] using hrel

theorem percentileRat_eq (l : List Int) (p : ℚ) (h : l.length ≠ 0) :
    calculatePercentileRat l p
      = if (l.length : Int) ≤ ratTrunc (p * ((l.length : ℚ) - 1)) + 1 then
          (l.getD (ratTrunc (p * ((l.length : ℚ) - 1))).toNat 0 : ℚ)
        else
          (l.getD (ratTrunc (p * ((l.length : ℚ) - 1))).toNat 0 : ℚ)
              * (1 - (p * ((l.length : ℚ) - 1)
                  - ((ratTrunc (p * ((l.length : ℚ) - 1)) : Int) : ℚ)))
            + (l.getD ((ratTrunc (p * ((l.length : ℚ) - 1)) + 1)).toNat 0 : ℚ)
              * (p * ((l.length : ℚ) - 1)
                  - ((ratTrunc (p * ((l.length : ℚ) - 1)) : Int) : ℚ)) := by
  rw [calculatePercentileRat, if_neg h]

theorem percentileRat_eq_spec (l : List Int) (hne : l.length ≠ 0) (p : ℚ)
    (hp0 : 0 ≤ p) (hp1 : p ≤ 1) :
    calculatePercentileRat l p = specPercentile l p := by
  have hn1 : 1 ≤ l.length := Nat.one_le_iff_ne_zero.2 hne
  rw [percentileRat_eq l p hne]
  simp only [specPercentile]
  set n := l.length with hn
  have hnq : (1 : ℚ) ≤ (n : ℚ) := by exact_mod_cast hn1
  set r := p * ((n : ℚ) - 1) with hr
  have hr0 : 0 ≤ r := mul_nonneg hp0 (by linarith)
  have hrle : r ≤ (n : ℚ) - 1 := by
    have := mul_le_mul_of_nonneg_right hp1 (by linarith : (0 : ℚ) ≤ (n : ℚ) - 1)
    simpa using this
  rw [ratTrunc_eq_floor r hr0]
  have hL0 : 0 ≤ ⌊r⌋ := Int.floor_nonneg.2 hr0
  have hLle : ⌊r⌋ ≤ (n : Int) - 1 := by
    calc ⌊r⌋ ≤ ⌊(n : ℚ) - 1⌋ := Int.floor_le_floor hrle
    _ = (n : Int) - 1 := by
        rw [show ((n : ℚ) - 1) = ((n : ℚ) - ((1 : Int) : ℚ)) by norm_num,
          Int.floor_sub_int, Int.floor_natCast]
  have hcast : ((⌊r⌋.toNat : ℚ)) = ((⌊r⌋ : Int) : ℚ) := by
    exact_mod_cast congrArg (fun z : Int => (z : ℚ)) (Int.toNat_of_nonneg hL0)
  by_cases hb : (n : Int) ≤ ⌊r⌋ + 1
  · rw [if_pos hb]
    have hLeq : ⌊r⌋ = (n : Int) - 1 := le_antisymm hLle (by omega)
    have hreq : r = (n : ℚ) - 1 := by
      have hfl := Int.floor_le r
      rw [hLeq] at hfl
      push_cast at hfl
      linarith
    have hw : r - ((⌊r⌋.toNat : Nat) : ℚ) = 0 := by
      rw [hcast, hLeq]
      push_cast
      linarith
    rw [hw]
    ring
  · rw [if_neg hb]
    have hlt : ⌊r⌋ + 1 < (n : Int) := by omega
    have hmin : min (⌊r⌋.toNat + 1) (n - 1) = ⌊r⌋.toNat + 1 := by
      apply min_eq_left
      omega
    have htn : (⌊r⌋ + 1).toNat = ⌊r⌋.toNat + 1 := by omega
    rw [hmin, htn, hcast]

theorem percentileRat_mono (l : List Int) (hs : l.Sorted (fun a b => a ≤ b))
    (hne : l.length ≠ 0) {p q : ℚ} (hp0 : 0 ≤ p) (hpq : p ≤ q) (hq1 : q ≤ 1) :
    calculatePercentileRat l p ≤ calculatePercentileRat l q := by
  have hq0 : 0 ≤ q := le_trans hp0 hpq
  have hn1 : 1 ≤ l.length := Nat.one_le_iff_ne_zero.2 hne
  rw [percentileRat_eq l p hne, percentileRat_eq l q hne]
  set n := l.length with hn
  have hnq : (1 : ℚ) ≤ (n : ℚ) := by exact_mod_cast hn1
  set rp := p * ((n : ℚ) - 1) with hrp
  set rq := q * ((n : ℚ) - 1) with hrq
  have hrp0 : 0 ≤ rp := mul_nonneg hp0 (by linarith)
  have hrq0 : 0 ≤ rq := mul_nonneg hq0 (by linarith)
  have hrpq : rp ≤ rq := mul_le_mul_of_nonneg_right hpq (by linarith)
  have hrqle : rq ≤ (n : ℚ) - 1 := by
    have := mul_le_mul_of_nonneg_right hq1 (by linarith : (0 : ℚ) ≤ (n : ℚ) - 1)
    simpa using this
  rw [ratTrunc_eq_floor rp hrp0, ratTrunc_eq_floor rq hrq0]
  have hLp0 : 0 ≤ ⌊rp⌋ := Int.floor_nonneg.2 hrp0
  have hLq0 : 0 ≤ ⌊rq⌋ := Int.floor_nonneg.2 hrq0
  have hLpq : ⌊rp⌋ ≤ ⌊rq⌋ := Int.floor_le_floor hrpq
  have hLqle : ⌊rq⌋ ≤ (n : Int) - 1 := by
    calc ⌊rq⌋ ≤ ⌊(n : ℚ) - 1⌋ := Int.floor_le_floor hrqle
    _ = (n : Int) - 1 := by
        rw [show ((n : ℚ) - 1) = ((n : ℚ) - ((1 : Int) : ℚ)) by norm_num,
          Int.floor_sub_int, Int.floor_natCast]
  have hwp0 : 0 ≤ rp - ((⌊rp⌋ : Int) : ℚ) := sub_nonneg.2 (Int.floor_le rp)
  have hwq0 : 0 ≤ rq - ((⌊rq⌋ : Int) : ℚ) := sub_nonneg.2 (Int.floor_le rq)
  have hwp1 : rp - ((⌊rp⌋ : Int) : ℚ) ≤ 1 := by
    have := Int.lt_floor_add_one rp
    push_cast at this
    linarith
  have hwq1 : rq - ((⌊rq⌋ : Int) : ℚ) ≤ 1 := by
    have := Int.lt_floor_add_one rq
    push_cast at this
    linarith
  by_cases hbq : (n : Int) ≤ ⌊rq⌋ + 1
  · rw [if_pos hbq]
    by_cases hbp : (n : Int) ≤ ⌊rp⌋ + 1
    · rw [if_pos hbp]
      have hmono : l.getD ⌊rp⌋.toNat 0 ≤ l.getD ⌊rq⌋.toNat 0 :=
        sortedGetD_mono l hs (by omega) (by omega)
      exact_mod_cast hmono
    · rw [if_neg hbp]
      have hab : (l.getD ⌊rp⌋.toNat 0 : ℚ) ≤ (l.getD (⌊rp⌋ + 1).toNat 0 : ℚ) := by
        exact_mod_cast sortedGetD_mono l hs (by omega) (by omega)
      have hbc : (l.getD (⌊rp⌋ + 1).toNat 0 : ℚ) ≤ (l.getD ⌊rq⌋.toNat 0 : ℚ) := by
        exact_mod_cast sortedGetD_mono l hs (by omega) (by omega)
      calc (l.getD ⌊rp⌋.toNat 0 : ℚ) * (1 - (rp - ((⌊rp⌋ : Int) : ℚ)))
            + (l.getD (⌊rp⌋ + 1).toNat 0 : ℚ) * (rp - ((⌊rp⌋ : Int) : ℚ))
          ≤ (l.getD (⌊rp⌋ + 1).toNat 0 : ℚ) * (1 - (rp - ((⌊rp⌋ : Int) : ℚ)))
            + (l.getD (⌊rp⌋ + 1).toNat 0 : ℚ) * (rp - ((⌊rp⌋ : Int) : ℚ)) := by
            have := mul_le_mul_of_nonneg_right hab (by linarith : (0 : ℚ) ≤ 1 - (rp - ((⌊rp⌋ : Int) : ℚ)))
            linarith
        _ = (l.getD (⌊rp⌋ + 1).toNat 0 : ℚ) := by ring
        _ ≤ (l.getD ⌊rq⌋.toNat 0 : ℚ) := hbc
  · rw [if_neg hbq]
    have hbq1 : ⌊rq⌋ + 1 < (n : Int) := by omega
    have hcd : (l.getD ⌊rq⌋.toNat 0 : ℚ) ≤ (l.getD (⌊rq⌋ + 1).toNat 0 : ℚ) := by
      exact_mod_cast sortedGetD_mono l hs (by omega) (by omega)
    have hvq : (l.getD ⌊rq⌋.toNat 0 : ℚ)
        ≤ (l.getD ⌊rq⌋.toNat 0 : ℚ) * (1 - (rq - ((⌊rq⌋ : Int) : ℚ)))
          + (l.getD (⌊rq⌋ + 1).toNat 0 : ℚ) * (rq - ((⌊rq⌋ : Int) : ℚ)) := by
      have := mul_le_mul_of_nonneg_right hcd hwq0
      nlinarith
    by_cases hbp : (n : Int) ≤ ⌊rp⌋ + 1
    · exfalso
      omega
    · rw [if_neg hbp]
      have hbp1 : ⌊rp⌋ + 1 < (n : Int) := by omega
      rcases eq_or_lt_of_le hLpq with hEq | hLt
      · rw [← hEq]
        have hab : (l.getD ⌊rp⌋.toNat 0 : ℚ) ≤ (l.getD (⌊rp⌋ + 1).toNat 0 : ℚ) := by
          exact_mod_cast sortedGetD_mono l hs (by omega) (by omega)
        have hwpq : rp - ((⌊rp⌋ : Int) : ℚ) ≤ rq - ((⌊rp⌋ : Int) : ℚ) := by linarith
        nlinarith [mul_le_mul_of_nonneg_right hwpq (sub_nonneg.2 hab)]
      · have hab : (l.getD ⌊rp⌋.toNat 0 : ℚ) ≤ (l.getD (⌊rp⌋ + 1).toNat 0 : ℚ) := by
          exact_mod_cast sortedGetD_mono l hs (by omega) (by omega)
        have hbc : (l.getD (⌊rp⌋ + 1).toNat 0 : ℚ) ≤ (l.getD ⌊rq⌋.toNat 0 : ℚ) := by
          exact_mod_cast sortedGetD_mono l hs (by omega) (by omega)
        have hvp : (l.getD ⌊rp⌋.toNat 0 : ℚ) * (1 - (rp - ((⌊rp⌋ : Int) : ℚ)))
              + (l.getD (⌊rp⌋ + 1).toNat 0 : ℚ) * (rp - ((⌊rp⌋ : Int) : ℚ))
            ≤ (l.getD (⌊rp⌋ + 1).toNat 0 : ℚ) := by
          have := mul_le_mul_of_nonneg_right hab
            (by linarith : (0 : ℚ) ≤ 1 - (rp - ((⌊rp⌋ : Int) : ℚ)))
          nlinarith
        calc (l.getD ⌊rp⌋.toNat 0 : ℚ) * (1 - (rp - ((⌊rp⌋ : Int) : ℚ)))
              + (l.getD (⌊rp⌋ + 1).toNat 0 : ℚ) * (rp - ((⌊rp⌋ : Int) : ℚ))
            ≤ (l.getD (⌊rp⌋ + 1).toNat 0 : ℚ) := hvp
          _ ≤ (l.getD ⌊rq⌋.toNat 0 : ℚ) := hbc
          _ ≤ (l.getD ⌊rq⌋.toNat 0 : ℚ) * (1 - (rq - ((⌊rq⌋ : Int) : ℚ)))
              + (l.getD (⌊rq⌋ + 1).toNat 0 : ℚ) * (rq - ((⌊rq⌋ : Int) : ℚ)) := hvq

theorem calculatePercentiles_eq (sr : StressResult)
    (h : successDurations sr.DetailedResults ≠ []) :
    calculatePercentiles sr
      = { sr with
          P50ResponseTime := calculatePercentile
            (sortDurations (sampleTimes (successDurations sr.DetailedResults))) (50 / 100)
          P90ResponseTime := calculatePercentile
            (sortDurations (sampleTimes (successDurations sr.DetailedResults))) (90 / 100)
          P99ResponseTime := calculatePercentile
            (sortDurations (sampleTimes (successDurations sr.DetailedResults))) (99 / 100) } := by
  have hbuf : ¬ sr.DetailedResults.length = 0 := by
    intro h0
    apply h
    rw [List.length_eq_zero.1 h0]
    rfl
  have hlen : ¬ (successDurations sr.DetailedResults).length = 0 := by
    intro h0
    exact h (List.length_eq_zero.1 h0)
  simp only [calculatePercentiles]
  rw [if_neg hbuf, if_neg hlen]

/-- C3: with at least one successful outcome retained in the buffer,
finalization fills the three percentile fields from exactly the
successful durations in the buffer — down-sampled by a fixed stride to
10000 entries when exceeding 10000, sorted ascending — and each field
equals the linear interpolation between the floor(p(n-1))-th and the
next sorted value (the upper index clamped to n-1), weighted by the
fractional part of p(n-1), truncated to an integer duration. -/
theorem claim_C3 (sr : StressResult) (hne : successDurations sr.DetailedResults ≠ []) :
    (calculatePercentiles sr).P50ResponseTime
      = ratTrunc (specPercentile
          (sortDurations (specStride (successDurations sr.DetailedResults)))
          (50 / 100)) ∧
    (calculatePercentiles sr).P90ResponseTime
      = ratTrunc (specPercentile
          (sortDurations (specStride (successDurations sr.DetailedResults)))
          (90 / 100)) ∧
    (calculatePercentiles sr).P99ResponseTime
      = ratTrunc (specPercentile
          (sortDurations (specStride (successDurations sr.DetailedResults)))
          (99 / 100)) := by
  have hstride : specStride (successDurations sr.DetailedResults)
      = sampleTimes (successDurations sr.DetailedResults) := rfl
  have hlen0 : (successDurations sr.DetailedResults).length ≠ 0 := fun h0 =>
    hne (List.length_eq_zero.1 h0)
  have hlen2 : (sortDurations (sampleTimes (successDurations sr.DetailedResults))).length
      ≠ 0 := by
    rw [length_sortDurations]
    exact length_sampleTimes_ne _ hlen0
  rw [calculatePercentiles_eq sr hne, hstride]
  refine ⟨?_, ?_, ?_⟩
  · show calculatePercentile
        (sortDurations (sampleTimes (successDurations sr.DetailedResults))) (50 / 100) = _
    exact congrArg ratTrunc (percentileRat_eq_spec _ hlen2 _ (by norm_num) (by norm_num))
  · show calculatePercentile
        (sortDurations (sampleTimes (successDurations sr.DetailedResults))) (90 / 100) = _
    exact congrArg ratTrunc (percentileRat_eq_spec _ hlen2 _ (by norm_num) (by norm_num))
  · show calculatePercentile
        (sortDurations (sampleTimes (successDurations sr.DetailedResults))) (99 / 100) = _
    exact congrArg ratTrunc (percentileRat_eq_spec _ hlen2 _ (by norm_num) (by norm_num))

/-- C3 witness: a buffer holding one successful ten-nanosecond outcome;
all three percentile fields equal the spec-side interpolation value. -/
theorem claim_C3_witness :
    successDurations
        ({ NewStressResult with
            DetailedResults := [⟨10, 200, true, [], 0⟩] } : StressResult).DetailedResults
      ≠ [] ∧
    ((calculatePercentiles
          { NewStressResult with
            DetailedResults := [⟨10, 200, true, [], 0⟩] }).P50ResponseTime
        = ratTrunc (specPercentile
            (sortDurations (specStride (successDurations
              ({ NewStressResult with
                  DetailedResults := [⟨10, 200, true, [], 0⟩] } :
                StressResult).DetailedResults))) (50 / 100)) ∧
      (calculatePercentiles
          { NewStressResult with
            DetailedResults := [⟨10, 200, true, [], 0⟩] }).P90ResponseTime
        = ratTrunc (specPercentile
            (sortDurations (specStride (successDurations
              ({ NewStressResult with
                  DetailedResults := [⟨10, 200, true, [], 0⟩] } :
                StressResult).DetailedResults))) (90 / 100)) ∧
      (calculatePercentiles
          { NewStressResult with
            DetailedResults := [⟨10, 200, true, [], 0⟩] }).P99ResponseTime
        = ratTrunc (specPercentile
            (sortDurations (specStride (successDurations
              ({ NewStressResult with
                  DetailedResults := [⟨10, 200, true, [], 0⟩] } :
                StressResult).DetailedResults))) (99 / 100))) :=
  ⟨by decide, claim_C3 _ (by decide)⟩

/-- C5: with a non-empty successful sample the computed percentiles are
monotone — P50 at most P90 at most P99. -/
theorem claim_C5 (sr : StressResult) (hne : successDurations sr.DetailedResults ≠ []) :
    (calculatePercentiles sr).P50ResponseTime
      ≤ (calculatePercentiles sr).P90ResponseTime ∧
    (calculatePercentiles sr).P90ResponseTime
      ≤ (calculatePercentiles sr).P99ResponseTime := by
  have hlen0 : (successDurations sr.DetailedResults).length ≠ 0 := fun h0 =>
    hne (List.length_eq_zero.1 h0)
  have hlen2 : (sortDurations (sampleTimes (successDurations sr.DetailedResults))).length
      ≠ 0 := by
    rw [length_sortDurations]
    exact length_sampleTimes_ne _ hlen0
  have hsorted := sorted_sortDurations (sampleTimes (successDurations sr.DetailedResults))
  rw [calculatePercentiles_eq sr hne]
  constructor
  · show calculatePercentile
          (sortDurations (sampleTimes (successDurations sr.DetailedResults))) (50 / 100)
        ≤ calculatePercentile
          (sortDurations (sampleTimes (successDurations sr.DetailedResults))) (90 / 100)
    exact ratTrunc_mono (percentileRat_mono _ hsorted hlen2
      (by norm_num) (by norm_num) (by norm_num))
  · show calculatePercentile
          (sortDurations (sampleTimes (successDurations sr.DetailedResults))) (90 / 100)
        ≤ calculatePercentile
          (sortDurations (sampleTimes (successDurations sr.DetailedResults))) (99 / 100)
    exact ratTrunc_mono (percentileRat_mono _ hsorted hlen2
      (by norm_num) (by norm_num) (by norm_num))

/-- C5 witness: a buffer with successful outcomes of seven and three
nanoseconds; the percentile fields are ordered. -/
theorem claim_C5_witness :
    successDurations
        ({ NewStressResult with
            DetailedResults := [⟨7, 200, true, [], 0⟩, ⟨3, 200, true, [], 0⟩] } :
          StressResult).DetailedResults
      ≠ [] ∧
    ((calculatePercentiles
          { NewStressResult with
            DetailedResults := [⟨7, 200, true, [], 0⟩, ⟨3, 200, true, [], 0⟩] }
        ).P50ResponseTime
        ≤ (calculatePercentiles
          { NewStressResult with
            DetailedResults := [⟨7, 200, true, [], 0⟩, ⟨3, 200, true, [], 0⟩] }
        ).P90ResponseTime ∧
      (calculatePercentiles
          { NewStressResult with
            DetailedResults := [⟨7, 200, true, [], 0⟩, ⟨3, 200, true, [], 0⟩] }
        ).P90ResponseTime
        ≤ (calculatePercentiles
          { NewStressResult with
            DetailedResults := [⟨7, 200, true, [], 0⟩, ⟨3, 200, true, [], 0⟩] }
        ).P99ResponseTime) :=
  ⟨by decide, claim_C5 _ (by decide)⟩

/-- C7 counterexample: a configuration with a negative duration and a
zero total count specifies neither load mode, so the claim requires
rejection, yet validate accepts it. -/
theorem claim_C7_counterexample :
    ¬ ((validate
          { url := "http://x", method := "GET", totalRequests := 0,
            concurrency := 1, duration := -1 }).isSome
        ↔ specValidationFails
            { url := "http://x", method := "GET", totalRequests := 0,
              concurrency := 1, duration := -1 }) := by
  decide

/-- C7 amended: validation fails if and only if the URL is missing, or
concurrency is non-positive, or the duration is exactly zero while the
total count is non-positive, or both duration and total count are
positive, or the upper-cased method is outside the allowed set; a
negative duration thus counts as present for the neither-check but as
absent for the both-check. -/
theorem claim_C7 (c : Config) :
    (validate c).isSome ↔
      (c.url = "" ∨ c.concurrency ≤ 0 ∨ (c.duration = 0 ∧ c.totalRequests ≤ 0) ∨
        (0 < c.duration ∧ 0 < c.totalRequests) ∨ toUpperStr c.method ∉ validMethods) := by
  unfold validate
  split_ifs with h1 h2 h3 h4 h5 <;> simp_all

end StressTester
